import Mathlib

/-!
Verification of the portfolio performance pipeline of `data_module.py`
(ISA portfolio dashboard).

The embedding models prices and weights as rationals.  Pandas `NaN`
outcomes (mean of an empty series, sample standard deviation of fewer
than two observations) are modelled with `Option`: `none` stands for
`NaN`.  The Sharpe ratio involves `Real.sqrt`, so that one function is
real-valued; everything else is executable over `ℚ`.
-/

namespace ISA

/-- A fetched closing-price series: (date, close) pairs, dates ascending.
Models the `종가` column of the DataFrame returned by `get_etf_price`;
an empty list models a failed fetch (empty DataFrame). -/
abbrev Series := List (ℕ × ℚ)

/-- A price provider: ticker → fetched series.  Models `get_etf_price`
with the start/end dates fixed for one run. -/
abbrev Provider := String → Series

/-- One entry of the `etfs` mapping of a portfolio in `config.json`. -/
structure EtfInfo where
  ticker : String
  weight : ℚ
deriving DecidableEq

/-- One portfolio of `PORTFOLIO_CONFIG`: its ordered `etfs` mapping and
the optional `target_sharpe` key. -/
structure PortfolioCfg where
  etfs : List (String × EtfInfo)
  target_sharpe : Option ℚ

/-- `PORTFOLIO_CONFIG`: ordered mapping portfolio name → config. -/
abbrev Config := List (String × PortfolioCfg)

/-- Arithmetic mean, total version (`sum/len`; `0` on `[]`). -/
def meanOf (l : List ℚ) : ℚ := l.sum / l.length

/-- Pandas `Series.mean()`: `NaN` (here `none`) on an empty series. -/
def meanQ (l : List ℚ) : Option ℚ :=
  if l = [] then none else some (meanOf l)

/-- Pandas `Series.pct_change().dropna()`: successive ratios minus 1. -/
def pctChange : List ℚ → List ℚ
  | [] => []
  | [_] => []
  | a :: b :: rest => (b / a - 1) :: pctChange (b :: rest)

/-- Running maxima continuing from an already-seen maximum `m`. -/
def cummaxFrom (m : ℚ) : List ℚ → List ℚ
  | [] => []
  | p :: rest => max m p :: cummaxFrom (max m p) rest

/-- Pandas `prices.expanding().max()`: running maxima of a series. -/
def cummax : List ℚ → List ℚ
  | [] => []
  | p :: rest => p :: cummaxFrom p rest

/-- The drawdown series `(prices - cummax) / cummax * 100` of
`calculate_mdd` (line 49 of `data_module.py`). -/
def drawdowns (l : List ℚ) : List ℚ :=
  List.zipWith (fun p m => (p - m) / m * 100) l (cummax l)

/-- `calculate_mdd`: 0 for fewer than 2 points, else the minimum of the
drawdown series. -/
def calculate_mdd (prices : List ℚ) : ℚ :=
  if prices.length < 2 then 0
  else ((drawdowns prices).min?).getD 0

/-- Sample variance with the pandas `ddof=1` denominator `n - 1`. -/
def sampleVar (l : List ℚ) : ℚ :=
  ((l.map fun x => (x - meanOf l) ^ 2).sum) / ((l.length : ℚ) - 1)

/-- Pandas `Series.std()` (sample convention): `NaN` (`none`) for fewer
than two observations, else `√(sample variance)`. -/
noncomputable def sampleStd (l : List ℚ) : Option ℝ :=
  if l.length < 2 then none else some (Real.sqrt ((sampleVar l : ℚ) : ℝ))

open Classical in
/-- `calculate_sharpe_ratio` of `data_module.py` (renamed): annualized
Sharpe ratio.  Returns `some 0` on an empty return series; a `NaN`
standard deviation (single observation) propagates through the
`annual_std == 0` comparison (false for `NaN`) into a `NaN` result,
modelled as `none`. -/
noncomputable def calculate_sharpe (returns : List ℚ) (risk_free_rate : ℚ := 2 / 100) :
    Option ℝ :=
  if returns.length = 0 then some 0
  else
    match sampleStd returns with
    | none => none
    | some s =>
      let annual_return : ℝ := ((meanOf returns : ℚ) : ℝ) * 252
      let annual_std : ℝ := s * Real.sqrt 252
      if annual_std = 0 then some 0
      else some ((annual_return - ((risk_free_rate : ℚ) : ℝ)) / annual_std)

/-- The fetch-and-filter loop of `get_portfolio_performance` (lines
87-101): keep instruments with positive weight whose fetched series is
non-empty, in configuration order. -/
def selectedSeries (etfs : List (String × EtfInfo)) (fetch : Provider) :
    List (String × Series) :=
  etfs.filterMap fun e =>
    if e.2.weight ≤ 0 then none
    else
      let df := fetch e.2.ticker
      if df.isEmpty then none else some (e.1, df)

/-- Insert a date into a sorted date list. -/
def insertSorted (d : ℕ) : List ℕ → List ℕ
  | [] => [d]
  | e :: rest => if d ≤ e then d :: e :: rest else e :: insertSorted d rest

/-- Sort a date list ascending (insertion sort). -/
def sortDates : List ℕ → List ℕ
  | [] => []
  | d :: rest => insertSorted d (sortDates rest)

/-- The sorted, deduplicated union of all observation dates: the index
produced by the chain of outer joins. -/
def unionDates (ss : List (String × Series)) : List ℕ :=
  sortDates ((ss.map fun p => p.2.map Prod.fst).flatten.dedup)

/-- Forward-fill lookup: the last observation at or before date `d`
(`none` if the series has no observation yet), as `ffill()` produces on
the joined index. -/
def ffillAt (s : Series) (d : ℕ) : Option ℚ :=
  ((s.filter fun p => p.1 ≤ d).getLast?).map Prod.snd

/-- `price_df.ffill().dropna()`: for each union date, forward-fill every
instrument and keep only the rows where every instrument has a value. -/
def alignedRows (ss : List (String × Series)) :
    List (ℕ × List (String × ℚ)) :=
  (unionDates ss).filterMap fun d =>
    let vals := ss.map fun e => (e.1, ffillAt e.2 d)
    if vals.all fun p => p.2.isSome then
      some (d, vals.map fun p => (p.1, p.2.getD 0))
    else none

/-- `etfs[name]['weight']` for a column name of the aligned table. -/
def weightOf (etfs : List (String × EtfInfo)) (n : String) : ℚ :=
  ((etfs.lookup n).map EtfInfo.weight).getD 0

/-- One date's portfolio index value: sum over columns of
`price / price[first date] * 100 * weight` (lines 114-119). -/
def rowValue (etfs : List (String × EtfInfo)) (firstRow vals : List (String × ℚ)) : ℚ :=
  (vals.map fun e => e.2 / ((firstRow.lookup e.1).getD 0) * 100 * weightOf etfs e.1).sum

/-- The weighted normalized portfolio index over the aligned rows. -/
def portfolioIndex (etfs : List (String × EtfInfo))
    (rows : List (ℕ × List (String × ℚ))) : List (ℕ × ℚ) :=
  match rows with
  | [] => []
  | first :: _ => rows.map fun r => (r.1, rowValue etfs first.2 r.2)

/-- The dict returned by `get_portfolio_performance` on success.
`annual_return` is `Option`al because `daily_returns.mean()` is `NaN`
on an empty return series; `sharpe` is `Option`al for the same
`NaN` reason. -/
@[ext]
structure PerfResult where
  total_return : ℚ
  annual_return : Option ℚ
  mdd : ℚ
  sharpe : Option ℝ
  target_sharpe : ℚ
  prices : List (ℕ × ℚ)
  returns : List ℚ
  last_updated : Option ℕ

/-- Lines 112-138 of `data_module.py`: index construction and metric
computation over a non-empty aligned table. -/
noncomputable def buildResult (c : PortfolioCfg)
    (rows : List (ℕ × List (String × ℚ))) : PerfResult :=
  let idx := portfolioIndex c.etfs rows
  let indexVals := idx.map Prod.snd
  let daily_returns := pctChange indexVals
  { total_return := (indexVals.getLast?.getD 0 / indexVals.head?.getD 0 - 1) * 100
    annual_return := (meanQ daily_returns).map fun m => m * 252 * 100
    mdd := calculate_mdd indexVals
    sharpe := calculate_sharpe daily_returns
    target_sharpe := c.target_sharpe.getD 0
    prices := idx
    returns := daily_returns
    last_updated := (rows.map Prod.fst).getLast? }

/-- `get_portfolio_performance`: the full pipeline.  `none` models the
empty dict `{}`. -/
noncomputable def get_portfolio_performance (cfg : Config) (fetch : Provider)
    (portfolio_name : String) : Option PerfResult :=
  match cfg.lookup portfolio_name with
  | none => none
  | some c =>
    let selected := selectedSeries c.etfs fetch
    if selected.isEmpty then none
    else
      let rows := alignedRows selected
      if rows.isEmpty then none
      else some (buildResult c rows)

/-! Weight-scaling model (C9) -/

/-- Multiply every instrument's weight by `c`. -/
def scaleEtfs (c : ℚ) (etfs : List (String × EtfInfo)) : List (String × EtfInfo) :=
  etfs.map fun e => (e.1, EtfInfo.mk e.2.ticker (c * e.2.weight))

/-- A portfolio config with every weight multiplied by `c`. -/
def scaleWeights (c : ℚ) (p : PortfolioCfg) : PortfolioCfg :=
  { etfs := scaleEtfs c p.etfs, target_sharpe := p.target_sharpe }

/-- Scale every index value by `c`, keeping dates. -/
def scaleIndex (c : ℚ) (idx : List (ℕ × ℚ)) : List (ℕ × ℚ) :=
  idx.map fun dv => (dv.1, c * dv.2)

/-- The expected effect of weight scaling on a result: the portfolio
index is scaled pointwise, every metric is untouched. -/
def scaleResult (c : ℚ) (r : PerfResult) : PerfResult :=
  { r with prices := scaleIndex c r.prices }

/-! Concrete instances used by witnesses and counterexamples -/

/-- A one-instrument portfolio, full weight, no `target_sharpe` key. -/
def pcfg0 : PortfolioCfg :=
  { etfs := [("E", { ticker := "T", weight := 1 })], target_sharpe := none }

/-- A configuration holding only portfolio `"A"`. -/
def cfg0 : Config := [("A", pcfg0)]

/-- A provider with a single observation for ticker `"T"`. -/
def f0 : Provider := fun t => if t = "T" then [(0, 100)] else []

/-- The result `get_portfolio_performance cfg0 f0 "A"` produces: one
aligned row, hence no daily returns, `NaN` annualized return, Sharpe 0. -/
noncomputable def r0 : PerfResult := buildResult pcfg0 [(0, [("E", 100)])]

/-- A two-instrument portfolio with a `target_sharpe` key. -/
def pcfg2 : PortfolioCfg :=
  { etfs := [("E1", { ticker := "T1", weight := 1 }),
             ("E2", { ticker := "T2", weight := 1 })]
    target_sharpe := some 7 }

/-- A configuration holding only portfolio `"B"`. -/
def cfg2 : Config := [("B", pcfg2)]

/-- A provider that fails for ticker `"T1"` (empty series) and returns
two observations for `"T2"`. -/
def f2 : Provider := fun t => if t = "T2" then [(0, 100), (1, 110)] else []

/-- The result for portfolio `"B"`: instrument `E1` is skipped because
its series is empty, and the pipeline runs on `E2`'s two rows alone. -/
noncomputable def r2 : PerfResult :=
  buildResult pcfg2 [(0, [("E2", 100)]), (1, [("E2", 110)])]

/-- The configuration `cfg0` with every weight of portfolio `"A"`
doubled. -/
def cfg0s : Config := [("A", scaleWeights 2 pcfg0)]

theorem gpp_eval0 : get_portfolio_performance cfg0 f0 "A" = some r0 := by
  rfl

theorem r0_fields : r0.returns = [] ∧ r0.annual_return = none ∧ r0.target_sharpe = 0 :=
  ⟨rfl, rfl, rfl⟩

theorem gpp_eval2 : get_portfolio_performance cfg2 f2 "B" = some r2 := by
  show (if (selectedSeries pcfg2.etfs f2).isEmpty then none
        else if (alignedRows (selectedSeries pcfg2.etfs f2)).isEmpty then none
        else some (buildResult pcfg2 (alignedRows (selectedSeries pcfg2.etfs f2))))
      = some r2
  rw [show selectedSeries pcfg2.etfs f2 = [("E2", [(0, 100), (1, 110)])] from by decide]
  rw [show alignedRows [("E2", [(0, 100), (1, 110)])]
        = [(0, [("E2", 100)]), (1, [("E2", 110)])] from by decide]
  rfl

/-! Helper lemmas -/

theorem alignedRows_nil : alignedRows [] = [] := rfl

theorem mem_insertSorted (d : ℕ) :
    ∀ (l : List ℕ) (a : ℕ), a ∈ insertSorted d l ↔ a = d ∨ a ∈ l := by
  intro l
  induction l with
  | nil => intro a; simp [insertSorted]
  | cons e t ih =>
    intro a
    unfold insertSorted
    by_cases h : d ≤ e
    · rw [if_pos h]
      simp [List.mem_cons]
    · rw [if_neg h]
      simp only [List.mem_cons, ih a]
      tauto

theorem mem_sortDates : ∀ (l : List ℕ) (a : ℕ), a ∈ sortDates l ↔ a ∈ l := by
  intro l
  induction l with
  | nil => intro a; exact Iff.rfl
  | cons d t ih =>
    intro a
    show a ∈ insertSorted d (sortDates t) ↔ _
    rw [mem_insertSorted, ih a]
    simp [List.mem_cons]

theorem foldr_max_mem : ∀ l : List ℕ, l ≠ [] → l.foldr max 0 ∈ l := by
  intro l
  induction l with
  | nil => intro h; exact absurd rfl h
  | cons a t ih =>
    intro _
    cases t with
    | nil =>
      show max a (([] : List ℕ).foldr max 0) ∈ [a]
      rw [show ([] : List ℕ).foldr max 0 = 0 from rfl, Nat.max_zero]
      exact List.mem_cons_self a []
    | cons b t2 =>
      show max a ((b :: t2).foldr max 0) ∈ a :: b :: t2
      rcases max_choice a ((b :: t2).foldr max 0) with h | h
      · rw [h]
        exact List.mem_cons_self _ _
      · rw [h]
        exact List.mem_cons_of_mem a (ih (by simp))

theorem le_foldr_max : ∀ l : List ℕ, ∀ x ∈ l, x ≤ l.foldr max 0 := by
  intro l
  induction l with
  | nil => intro x hx; exact absurd hx (List.not_mem_nil x)
  | cons a t ih =>
    intro x hx
    rw [List.foldr_cons]
    rcases List.mem_cons.mp hx with h | h
    · subst h
      exact le_max_left x (t.foldr max 0)
    · exact le_trans (ih x h) (le_max_right a (t.foldr max 0))

/-- Every series kept by the collection loop is non-empty (line 96 of
`data_module.py` filters empty DataFrames out). -/
theorem selectedSeries_series_ne_nil (etfs : List (String × EtfInfo)) (fetch : Provider) :
    ∀ e ∈ selectedSeries etfs fetch, e.2 ≠ [] := by
  intro e he
  unfold selectedSeries at he
  rcases List.mem_filterMap.mp he with ⟨a, -, hfa⟩
  have hfa' : (if a.2.weight ≤ 0 then none
      else if (fetch a.2.ticker).isEmpty then none
      else some (a.1, fetch a.2.ticker)) = some e := hfa
  by_cases h1 : a.2.weight ≤ 0
  · rw [if_pos h1] at hfa'
    exact absurd hfa' (by simp)
  · rw [if_neg h1] at hfa'
    by_cases h2 : (fetch a.2.ticker).isEmpty
    · rw [if_pos h2] at hfa'
      exact absurd hfa' (by simp)
    · rw [if_neg h2] at hfa'
      obtain rfl : (a.1, fetch a.2.ticker) = e := Option.some_inj.mp hfa'
      show fetch a.2.ticker ≠ []
      intro hnil
      exact h2 (by rw [hnil]; rfl)

/-- A non-empty selection of non-empty series always yields a non-empty
aligned table: the last union date is at or after every observation, so
forward-fill defines every instrument there and `dropna` keeps that
row. -/
theorem alignedRows_ne_nil (ss : List (String × Series)) (hss : ss ≠ [])
    (h : ∀ e ∈ ss, e.2 ≠ []) : alignedRows ss ≠ [] := by
  obtain ⟨e0, he0⟩ := List.exists_mem_of_ne_nil ss hss
  obtain ⟨p0, hp0⟩ := List.exists_mem_of_ne_nil e0.2 (h e0 he0)
  have hpmem : p0.1 ∈ (ss.map fun p => p.2.map Prod.fst).flatten :=
    List.mem_flatten.mpr ⟨e0.2.map Prod.fst,
      List.mem_map_of_mem (fun p => p.2.map Prod.fst) he0,
      List.mem_map_of_mem Prod.fst hp0⟩
  have hdne : (ss.map fun p => p.2.map Prod.fst).flatten ≠ [] :=
    List.ne_nil_of_mem hpmem
  have hd0mem : ((ss.map fun p => p.2.map Prod.fst).flatten).foldr max 0
      ∈ (ss.map fun p => p.2.map Prod.fst).flatten :=
    foldr_max_mem _ hdne
  have hd0union : ((ss.map fun p => p.2.map Prod.fst).flatten).foldr max 0
      ∈ unionDates ss := by
    unfold unionDates
    rw [mem_sortDates]
    exact List.mem_dedup.mpr hd0mem
  have hall : ((ss.map fun e =>
      (e.1, ffillAt e.2 (((ss.map fun p => p.2.map Prod.fst).flatten).foldr max 0))).all
        fun p => p.2.isSome) = true := by
    rw [List.all_eq_true]
    intro q hq
    rcases List.mem_map.mp hq with ⟨e, he, rfl⟩
    show (ffillAt e.2 _).isSome = true
    unfold ffillAt
    have hfilter : e.2.filter
        (fun p => p.1 ≤ ((ss.map fun p => p.2.map Prod.fst).flatten).foldr max 0) = e.2 := by
      rw [List.filter_eq_self]
      intro a ha
      simp only [decide_eq_true_eq]
      exact le_foldr_max _ a.1 (List.mem_flatten.mpr ⟨e.2.map Prod.fst,
        List.mem_map_of_mem (fun p => p.2.map Prod.fst) he,
        List.mem_map_of_mem Prod.fst ha⟩)
    rw [hfilter]
    have hsome : e.2.getLast?.isSome = true := List.getLast?_isSome.mpr (h e he)
    rcases Option.isSome_iff_exists.mp hsome with ⟨v, hv⟩
    rw [hv]
    rfl
  intro hcontra
  have hmem : (((ss.map fun p => p.2.map Prod.fst).flatten).foldr max 0,
      (ss.map fun e =>
        (e.1, ffillAt e.2 (((ss.map fun p => p.2.map Prod.fst).flatten).foldr max 0))).map
          fun p => (p.1, p.2.getD 0)) ∈ alignedRows ss := by
    unfold alignedRows
    refine List.mem_filterMap.mpr ⟨_, hd0union, ?_⟩
    show (if _ then _ else _) = some _
    rw [if_pos hall]
  rw [hcontra] at hmem
  exact absurd hmem (List.not_mem_nil _)

/-- Any successful result is `buildResult` applied to the portfolio's
aligned table. -/
theorem gpp_some_elim (cfg : Config) (fetch : Provider) (name : String)
    (r : PerfResult) (h : get_portfolio_performance cfg fetch name = some r) :
    ∃ pcfg, cfg.lookup name = some pcfg ∧
      r = buildResult pcfg (alignedRows (selectedSeries pcfg.etfs fetch)) := by
  unfold get_portfolio_performance at h
  cases hl : cfg.lookup name with
  | none => rw [hl] at h; exact absurd h (by simp)
  | some pcfg =>
    rw [hl] at h
    refine ⟨pcfg, rfl, ?_⟩
    have h' : (if (selectedSeries pcfg.etfs fetch).isEmpty then none
        else if (alignedRows (selectedSeries pcfg.etfs fetch)).isEmpty then none
        else some (buildResult pcfg (alignedRows (selectedSeries pcfg.etfs fetch))))
        = some r := h
    by_cases h1 : (selectedSeries pcfg.etfs fetch).isEmpty
    · simp [h1] at h'
    · rw [if_neg (by simp [h1])] at h'
      by_cases h2 : (alignedRows (selectedSeries pcfg.etfs fetch)).isEmpty
      · simp [h2] at h'
      · rw [if_neg (by simp [h2])] at h'
        exact (Option.some.injEq _ _ ▸ h').symm

theorem buildResult_target (c : PortfolioCfg) (rows : List (ℕ × List (String × ℚ))) :
    (buildResult c rows).target_sharpe = c.target_sharpe.getD 0 := rfl

theorem buildResult_returns (c : PortfolioCfg) (rows : List (ℕ × List (String × ℚ))) :
    (buildResult c rows).returns =
      pctChange ((portfolioIndex c.etfs rows).map Prod.snd) := rfl

theorem buildResult_annual (c : PortfolioCfg) (rows : List (ℕ × List (String × ℚ))) :
    (buildResult c rows).annual_return =
      (meanQ (buildResult c rows).returns).map fun m => m * 252 * 100 := rfl

/-! Claims -/

/-- C7: for every portfolio name not present in the configuration,
`get_portfolio_performance` returns the empty result (`none`) and, being
a total function, does not raise an exception. -/
theorem gpp_unknown_name (cfg : Config) (fetch : Provider) (name : String)
    (h : cfg.lookup name = none) :
    get_portfolio_performance cfg fetch name = none := by
  unfold get_portfolio_performance
  rw [h]

theorem gpp_unknown_name_witness :
    get_portfolio_performance cfg0 f0 "Z" = none :=
  gpp_unknown_name cfg0 f0 "Z" rfl

/-- C8: `get_portfolio_performance` is a pure function of the
configuration and the provider responses: two calls with identical
configuration and pointwise-identical provider responses yield identical
results. -/
theorem gpp_deterministic (cfg1 cfg2 : Config) (f1 f2 : Provider) (name : String)
    (hc : cfg1 = cfg2) (hf : ∀ t, f1 t = f2 t) :
    get_portfolio_performance cfg1 f1 name = get_portfolio_performance cfg2 f2 name := by
  subst hc
  rw [funext hf]

theorem gpp_deterministic_witness :
    get_portfolio_performance cfg0 f0 "A" = get_portfolio_performance cfg0 f0 "A" :=
  gpp_deterministic cfg0 cfg0 f0 f0 "A" rfl (fun _ => rfl)

/-- C1 (amended): given a known portfolio name, the result is empty if
and only if the aligned price table is empty.  (The code has no
two-row minimum: a one-row table is not rejected — see the
counterexample.) -/
theorem gpp_empty_iff (cfg : Config) (fetch : Provider) (name : String)
    (pcfg : PortfolioCfg) (h : cfg.lookup name = some pcfg) :
    (alignedRows (selectedSeries pcfg.etfs fetch) = [] ↔
      get_portfolio_performance cfg fetch name = none) := by
  unfold get_portfolio_performance
  rw [h]
  show alignedRows (selectedSeries pcfg.etfs fetch) = [] ↔
    (if (selectedSeries pcfg.etfs fetch).isEmpty then none
     else if (alignedRows (selectedSeries pcfg.etfs fetch)).isEmpty then none
     else some (buildResult pcfg (alignedRows (selectedSeries pcfg.etfs fetch)))) = none
  by_cases hsel : (selectedSeries pcfg.etfs fetch).isEmpty
  · rw [List.isEmpty_iff] at hsel
    simp [hsel, alignedRows_nil]
  · simp only [hsel, if_false]
    by_cases hrows : (alignedRows (selectedSeries pcfg.etfs fetch)).isEmpty
    · rw [List.isEmpty_iff] at hrows
      simp [hrows]
    · have hne : alignedRows (selectedSeries pcfg.etfs fetch) ≠ [] := by
        simpa [List.isEmpty_iff] using hrows
      simp [hrows, hne]

theorem gpp_empty_iff_witness :
    get_portfolio_performance cfg0 (fun _ => []) "A" = none :=
  (gpp_empty_iff cfg0 (fun _ => []) "A" pcfg0 rfl).mp (by decide)

/-- C1 counterexample: a configuration whose aligned table has exactly
one row (fewer than 2 rows) for which the function still returns a
populated result, contradicting the claimed insufficient-history
rejection. -/
theorem gpp_one_row_not_rejected :
    (alignedRows (selectedSeries pcfg0.etfs f0)).length = 1 ∧
      get_portfolio_performance cfg0 f0 "A" ≠ none := by
  refine ⟨by decide, ?_⟩
  rw [gpp_eval0]
  exact Option.some_ne_none r0

/-- C2 (amended): an instrument whose fetched series is entirely empty
is skipped by the collection loop before any alignment (first
conjunct), so the computation proceeds on the remaining instruments
instead of the whole alignment collapsing to empty; and, for a known
portfolio name, the whole computation returns an empty result exactly
when the selection loop keeps no instrument, i.e. when no selected
instrument contributed any data (second conjunct). -/
theorem empty_fetch_skipped :
    (∀ (name : String) (info : EtfInfo) (etfs : List (String × EtfInfo))
        (fetch : Provider), fetch info.ticker = [] →
      selectedSeries ((name, info) :: etfs) fetch = selectedSeries etfs fetch) ∧
    (∀ (cfg : Config) (fetch : Provider) (name : String) (pcfg : PortfolioCfg),
        cfg.lookup name = some pcfg →
      (get_portfolio_performance cfg fetch name = none ↔
        selectedSeries pcfg.etfs fetch = [])) := by
  constructor
  · intro name info etfs fetch h
    unfold selectedSeries
    rw [List.filterMap_cons]
    by_cases hw : info.weight ≤ 0
    · simp [hw]
    · simp [hw, h]
  · intro cfg fetch name pcfg hl
    constructor
    · intro hnone
      by_contra hne
      have haligned : alignedRows (selectedSeries pcfg.etfs fetch) ≠ [] :=
        alignedRows_ne_nil _ hne (selectedSeries_series_ne_nil pcfg.etfs fetch)
      unfold get_portfolio_performance at hnone
      rw [hl] at hnone
      have hnone' : (if (selectedSeries pcfg.etfs fetch).isEmpty then none
          else if (alignedRows (selectedSeries pcfg.etfs fetch)).isEmpty then none
          else some (buildResult pcfg (alignedRows (selectedSeries pcfg.etfs fetch))))
          = none := hnone
      rw [if_neg (by simpa [List.isEmpty_iff] using hne),
        if_neg (by simpa [List.isEmpty_iff] using haligned)] at hnone'
      exact absurd hnone' (by simp)
    · intro hsel
      unfold get_portfolio_performance
      rw [hl]
      show (if (selectedSeries pcfg.etfs fetch).isEmpty then none
          else if (alignedRows (selectedSeries pcfg.etfs fetch)).isEmpty then none
          else some (buildResult pcfg (alignedRows (selectedSeries pcfg.etfs fetch))))
          = none
      rw [if_pos (by simp [hsel])]

theorem empty_fetch_skipped_witness :
    selectedSeries [("E", ⟨"T", 1⟩)] (fun _ => []) = selectedSeries [] (fun _ => []) ∧
      get_portfolio_performance cfg2 (fun _ => []) "B" = none :=
  ⟨empty_fetch_skipped.1 "E" ⟨"T", 1⟩ [] (fun _ => []) rfl,
   (empty_fetch_skipped.2 cfg2 (fun _ => []) "B" pcfg2 rfl).mpr (by decide)⟩

/-- C2 counterexample: portfolio `"B"` selects two instruments, the
fetched series of `E1` (ticker `T1`) is entirely empty, and yet the
aligned table has two rows and the computation returns a populated
result, contradicting the claimed whole-alignment failure. -/
theorem empty_series_does_not_poison :
    f2 "T1" = [] ∧
      (alignedRows (selectedSeries pcfg2.etfs f2)).length = 2 ∧
      get_portfolio_performance cfg2 f2 "B" ≠ none := by
  refine ⟨rfl, by decide, ?_⟩
  rw [gpp_eval2]
  exact Option.some_ne_none r2

/-- C10: when the portfolio configuration has no `target_sharpe` entry,
a successful result carries `target_sharpe = 0` (the `.get` default)
rather than failing. -/
theorem gpp_target_sharpe_default (cfg : Config) (fetch : Provider) (name : String)
    (pcfg : PortfolioCfg) (r : PerfResult)
    (hl : cfg.lookup name = some pcfg) (ht : pcfg.target_sharpe = none)
    (hr : get_portfolio_performance cfg fetch name = some r) :
    r.target_sharpe = 0 := by
  obtain ⟨pcfg', hl', hbuild⟩ := gpp_some_elim cfg fetch name r hr
  rw [hl] at hl'
  cases hl'
  rw [hbuild, buildResult_target, ht]
  rfl

theorem gpp_target_sharpe_default_witness :
    pcfg0.target_sharpe = none ∧ r0.target_sharpe = 0 :=
  ⟨rfl, gpp_target_sharpe_default cfg0 f0 "A" pcfg0 r0 rfl rfl gpp_eval0⟩

/-- C3 (amended): in every successful result, the annualized return is
`mean(daily_returns) * 252 * 100` when the daily-return sequence is
non-empty, but it is `NaN` (`none`) — not 0 — when the sequence is
empty, since `daily_returns.mean()` of an empty series is `NaN` and the
code has no guard. -/
theorem annual_return_spec (cfg : Config) (fetch : Provider) (name : String)
    (r : PerfResult) (h : get_portfolio_performance cfg fetch name = some r) :
    (r.returns ≠ [] → r.annual_return = some (meanOf r.returns * 252 * 100)) ∧
    (r.returns = [] → r.annual_return = none) := by
  obtain ⟨pcfg, -, hbuild⟩ := gpp_some_elim cfg fetch name r h
  subst hbuild
  rw [buildResult_annual]
  constructor
  · intro hne
    unfold meanQ
    rw [if_neg hne]
    rfl
  · intro he
    unfold meanQ
    rw [if_pos he]
    rfl

theorem annual_return_spec_witness :
    get_portfolio_performance cfg0 f0 "A" = some r0 ∧
      r0.returns = [] ∧ r0.annual_return = none :=
  ⟨gpp_eval0, rfl, (annual_return_spec cfg0 f0 "A" r0 gpp_eval0).2 rfl⟩

/-- C3 counterexample: a successful (non-empty) result whose
daily-return sequence is empty has `annual_return = NaN` (`none`),
not 0 as claimed. -/
theorem annual_return_nan_on_empty :
    (get_portfolio_performance cfg0 f0 "A").map PerfResult.annual_return
      = some none := by
  rw [gpp_eval0]
  rfl

/-- C5 (amended): the sharpe computation returns exactly 0 on an empty
return sequence and on any sequence of at least two returns with zero
sample variance (so any flat series of three or more prices gives 0);
but a single daily return — i.e. any two-point price series — makes the
sample standard deviation `NaN`, which slips past the `annual_std == 0`
guard and produces a `NaN` result (`none`), not 0. -/
theorem calculate_sharpe_spec (returns : List ℚ) :
    (returns = [] → calculate_sharpe returns = some 0) ∧
    (2 ≤ returns.length → sampleVar returns = 0 → calculate_sharpe returns = some 0) ∧
    (returns.length = 1 → calculate_sharpe returns = none) := by
  refine ⟨?_, ?_, ?_⟩
  · rintro rfl
    rfl
  · intro h2 hv
    unfold calculate_sharpe
    rw [if_neg (by omega)]
    unfold sampleStd
    rw [if_neg (by omega)]
    show (if Real.sqrt ((sampleVar returns : ℚ) : ℝ) * Real.sqrt 252 = 0 then some 0
          else some _) = some 0
    rw [if_pos (by rw [hv]; simp)]
  · intro h1
    unfold calculate_sharpe
    rw [if_neg (by omega)]
    unfold sampleStd
    rw [if_pos (by omega)]

theorem calculate_sharpe_spec_witness :
    2 ≤ ([0, 0] : List ℚ).length ∧ sampleVar ([0, 0] : List ℚ) = 0 ∧
      calculate_sharpe [0, 0] = some 0 := by
  have hv : sampleVar ([0, 0] : List ℚ) = 0 := by
    unfold sampleVar meanOf
    norm_num
  exact ⟨by norm_num, hv, (calculate_sharpe_spec [0, 0]).2.1 (by norm_num) hv⟩

/-- C5 counterexample: a perfectly flat two-point price series yields a
single daily return of 0; its sample standard deviation is `NaN`
(pandas `ddof=1` with one observation), so the sharpe computation
returns `NaN` (`none`) — not 0 and not a defined value. -/
theorem calculate_sharpe_nan_on_flat_pair :
    pctChange [(100 : ℚ), 100] = [0] ∧
      calculate_sharpe (pctChange [(100 : ℚ), 100]) = none := by
  have hp : pctChange [(100 : ℚ), 100] = [0] := by
    show [(100 : ℚ) / 100 - 1] = [0]
    norm_num
  refine ⟨hp, ?_⟩
  rw [hp]
  unfold calculate_sharpe
  rw [if_neg (by norm_num)]
  unfold sampleStd
  rw [if_pos (by norm_num)]

/-- In an association list with distinct keys, each entry looks itself
up. -/
theorem lookup_self {β : Type} :
    ∀ (l : List (String × β)), (l.map Prod.fst).Nodup →
      ∀ e ∈ l, l.lookup e.1 = some e.2 := by
  intro l
  induction l with
  | nil => intro _ e he; exact absurd he (List.not_mem_nil e)
  | cons kv rest ih =>
    intro hnd e he
    rw [List.map_cons, List.nodup_cons] at hnd
    rcases List.mem_cons.mp he with he1 | he2
    · subst he1
      simp [List.lookup]
    · have hne : e.1 ≠ kv.1 := by
        intro hcontra
        exact hnd.1 (hcontra ▸ List.mem_map_of_mem Prod.fst he2)
      have : (e.1 == kv.1) = false := beq_eq_false_iff_ne.mpr hne
      simp only [List.lookup, this]
      exact ih hnd.2 e he2

/-- C4: the first value of the built portfolio index is exactly
`100 × Σ(weights)` summed over the instruments of the table (so 100
when those weights sum to 1).  Hypotheses: the first row has distinct
instrument names and positive prices, as the aligned-table data model
guarantees. -/
theorem portfolioIndex_first_value (etfs : List (String × EtfInfo)) (d : ℕ)
    (vals : List (String × ℚ)) (rest : List (ℕ × List (String × ℚ)))
    (hnd : (vals.map Prod.fst).Nodup) (hpos : ∀ e ∈ vals, 0 < e.2) :
    (portfolioIndex etfs ((d, vals) :: rest)).head? =
      some (d, 100 * (vals.map fun e => weightOf etfs e.1).sum) := by
  show some (d, rowValue etfs vals vals) = _
  have hrow : rowValue etfs vals vals =
      100 * (vals.map fun e => weightOf etfs e.1).sum := by
    unfold rowValue
    rw [List.map_congr_left
        (g := fun e : String × ℚ => 100 * weightOf etfs e.1) ?_]
    · exact List.sum_map_mul_left vals (fun e => weightOf etfs e.1) 100
    · intro e he
      rw [lookup_self vals hnd e he]
      rw [Option.getD_some, div_self (ne_of_gt (hpos e he)), one_mul]
  rw [hrow]

theorem portfolioIndex_first_value_witness :
    (portfolioIndex pcfg2.etfs [(0, [("E2", 100)])]).head? =
      some (0, 100 * (([("E2", (100 : ℚ))]).map
        fun e => weightOf pcfg2.etfs e.1).sum) :=
  portfolioIndex_first_value pcfg2.etfs 0 [("E2", 100)] []
    (by decide) (by decide)

/-! MDD lemmas -/

theorem foldl_min_le_init : ∀ (l : List ℚ) (x : ℚ), l.foldl min x ≤ x := by
  intro l
  induction l with
  | nil => intro x; simp
  | cons a t ih =>
    intro x
    calc (a :: t).foldl min x = t.foldl min (min x a) := by rw [List.foldl_cons]
    _ ≤ min x a := ih (min x a)
    _ ≤ x := min_le_left x a

theorem foldl_min_zeros : ∀ (l : List ℚ), (∀ y ∈ l, y = 0) → l.foldl min 0 = 0 := by
  intro l
  induction l with
  | nil => intro _; rfl
  | cons a t ih =>
    intro h
    rw [List.foldl_cons, h a (List.mem_cons_self a t), min_self]
    exact ih fun y hy => h y (List.mem_cons_of_mem a hy)

theorem drawdowns_cons (a : ℚ) (rest : List ℚ) :
    drawdowns (a :: rest) =
      0 :: List.zipWith (fun p m => (p - m) / m * 100) rest (cummaxFrom a rest) := by
  show ((a - a) / a * 100) :: _ = _
  rw [sub_self, zero_div, zero_mul]

theorem cummaxFrom_of_chain (m : ℚ) (l : List ℚ)
    (h : List.Chain (· ≤ ·) m l) : cummaxFrom m l = l := by
  induction l generalizing m with
  | nil => rfl
  | cons a rest ih =>
    rw [List.chain_cons] at h
    show max m a :: cummaxFrom (max m a) rest = a :: rest
    rw [max_eq_right h.1]
    rw [ih a h.2]

/-- C6: `calculate_mdd` is 0 for fewer than 2 points, equals the
minimum of the drawdown series `(prices - cummax)/cummax*100`
otherwise, is always ≤ 0, and is exactly 0 on a monotonically
non-decreasing series.  Hypothesis: prices are positive, per the
price-series data model. -/
theorem calculate_mdd_spec (prices : List ℚ) (hpos : ∀ p ∈ prices, 0 < p) :
    calculate_mdd prices ≤ 0 ∧
    (prices.length < 2 → calculate_mdd prices = 0) ∧
    (List.Chain' (· ≤ ·) prices → calculate_mdd prices = 0) ∧
    (2 ≤ prices.length → calculate_mdd prices = ((drawdowns prices).min?).getD 0) := by
  by_cases hlen : prices.length < 2
  · have h0 : calculate_mdd prices = 0 := by
      unfold calculate_mdd
      rw [if_pos hlen]
    exact ⟨le_of_eq h0, fun _ => h0, fun _ => h0, fun h2 => absurd h2 (by omega)⟩
  · match prices, hpos, hlen with
    | a :: rest, hpos, hlen =>
      have hform : calculate_mdd (a :: rest) = ((drawdowns (a :: rest)).min?).getD 0 := by
        unfold calculate_mdd
        rw [if_neg hlen]
      have hmin : (drawdowns (a :: rest)).min? = some
          ((List.zipWith (fun p m => (p - m) / m * 100) rest (cummaxFrom a rest)).foldl
            min 0) := by
        rw [drawdowns_cons]
        rfl
      have hle : calculate_mdd (a :: rest) ≤ 0 := by
        rw [hform, hmin, Option.getD_some]
        exact foldl_min_le_init _ 0
      refine ⟨hle, fun h => absurd h hlen, ?_, fun _ => hform⟩
      intro hchain
      rw [hform, hmin, Option.getD_some]
      have hcm : cummaxFrom a rest = rest := cummaxFrom_of_chain a rest hchain
      rw [hcm, List.zipWith_same]
      apply foldl_min_zeros
      intro y hy
      rcases List.mem_map.mp hy with ⟨p, -, hp⟩
      rw [← hp, sub_self, zero_div, zero_mul]

theorem calculate_mdd_spec_witness :
    (∀ p ∈ ([100, 90, 110] : List ℚ), 0 < p) ∧
      calculate_mdd ([100, 90, 110] : List ℚ) ≤ 0 :=
  ⟨by decide, (calculate_mdd_spec [100, 90, 110] (by decide)).1⟩

/-! Weight-scaling lemmas (C9) -/

theorem filterMapCongr {α β : Type} (f g : α → Option β) (l : List α)
    (h : ∀ a ∈ l, f a = g a) : l.filterMap f = l.filterMap g := by
  induction l with
  | nil => rfl
  | cons a t ih =>
    rw [List.filterMap_cons, List.filterMap_cons, h a (List.mem_cons_self a t),
      ih fun x hx => h x (List.mem_cons_of_mem a hx)]

theorem selectedSeries_scaleEtfs (c : ℚ) (hc : 0 < c)
    (etfs : List (String × EtfInfo)) (fetch : Provider) :
    selectedSeries (scaleEtfs c etfs) fetch = selectedSeries etfs fetch := by
  unfold selectedSeries scaleEtfs
  rw [List.filterMap_map]
  apply filterMapCongr
  intro e _
  show (if c * e.2.weight ≤ 0 then none
        else if (fetch e.2.ticker).isEmpty then none else some (e.1, fetch e.2.ticker))
      = (if e.2.weight ≤ 0 then none
        else if (fetch e.2.ticker).isEmpty then none else some (e.1, fetch e.2.ticker))
  by_cases h : e.2.weight ≤ 0
  · rw [if_pos h, if_pos (by nlinarith)]
  · rw [if_neg h, if_neg (by nlinarith)]

theorem lookup_scaleEtfs (c : ℚ) :
    ∀ (l : List (String × EtfInfo)) (n : String),
      (scaleEtfs c l).lookup n =
        (l.lookup n).map fun i => EtfInfo.mk i.ticker (c * i.weight) := by
  intro l
  induction l with
  | nil => intro n; rfl
  | cons e t ih =>
    intro n
    show List.lookup n ((e.1, EtfInfo.mk e.2.ticker (c * e.2.weight)) :: scaleEtfs c t) = _
    cases h : n == e.1 with
    | true => simp [List.lookup, h]
    | false => simp [List.lookup, h, ih n]

theorem weightOf_scaleEtfs (c : ℚ) (etfs : List (String × EtfInfo)) (n : String) :
    weightOf (scaleEtfs c etfs) n = c * weightOf etfs n := by
  unfold weightOf
  rw [lookup_scaleEtfs]
  cases etfs.lookup n with
  | none => show (0 : ℚ) = c * 0; rw [mul_zero]
  | some i => rfl

theorem rowValue_scaleEtfs (c : ℚ) (etfs : List (String × EtfInfo))
    (firstRow vals : List (String × ℚ)) :
    rowValue (scaleEtfs c etfs) firstRow vals = c * rowValue etfs firstRow vals := by
  unfold rowValue
  rw [← List.sum_map_mul_left]
  apply congrArg List.sum
  apply List.map_congr_left
  intro e _
  rw [weightOf_scaleEtfs]
  ring

theorem portfolioIndex_scaleEtfs (c : ℚ) (etfs : List (String × EtfInfo))
    (rows : List (ℕ × List (String × ℚ))) :
    portfolioIndex (scaleEtfs c etfs) rows = scaleIndex c (portfolioIndex etfs rows) := by
  cases rows with
  | nil => rfl
  | cons first rest =>
    show (first :: rest).map (fun r => (r.1, rowValue (scaleEtfs c etfs) first.2 r.2))
      = scaleIndex c ((first :: rest).map fun r => (r.1, rowValue etfs first.2 r.2))
    unfold scaleIndex
    rw [List.map_map]
    apply List.map_congr_left
    intro r _
    show (r.1, rowValue (scaleEtfs c etfs) first.2 r.2) =
      (r.1, c * rowValue etfs first.2 r.2)
    rw [rowValue_scaleEtfs]

theorem scaleIndex_snd (c : ℚ) (idx : List (ℕ × ℚ)) :
    (scaleIndex c idx).map Prod.snd = (idx.map Prod.snd).map fun x => c * x := by
  unfold scaleIndex
  rw [List.map_map, List.map_map]
  rfl

theorem pctChange_scale (c : ℚ) (hc : c ≠ 0) :
    ∀ l : List ℚ, pctChange (l.map fun x => c * x) = pctChange l := by
  intro l
  induction l with
  | nil => rfl
  | cons a t ih =>
    cases t with
    | nil => rfl
    | cons b t2 =>
      show (c * b / (c * a) - 1) :: pctChange ((b :: t2).map fun x => c * x)
        = (b / a - 1) :: pctChange (b :: t2)
      rw [mul_div_mul_left b a hc, ih]

theorem cummaxFrom_scale (c : ℚ) (hc : 0 ≤ c) :
    ∀ (l : List ℚ) (m : ℚ),
      cummaxFrom (c * m) (l.map fun x => c * x) = (cummaxFrom m l).map fun x => c * x := by
  intro l
  induction l with
  | nil => intro m; rfl
  | cons a t ih =>
    intro m
    show max (c * m) (c * a) :: cummaxFrom (max (c * m) (c * a)) (t.map fun x => c * x)
      = (max m a :: cummaxFrom (max m a) t).map fun x => c * x
    rw [← mul_max_of_nonneg m a hc, List.map_cons, ih (max m a)]

theorem cummax_scale (c : ℚ) (hc : 0 ≤ c) (l : List ℚ) :
    cummax (l.map fun x => c * x) = (cummax l).map fun x => c * x := by
  cases l with
  | nil => rfl
  | cons a t =>
    show (c * a) :: cummaxFrom (c * a) (t.map fun x => c * x)
      = (a :: cummaxFrom a t).map fun x => c * x
    rw [cummaxFrom_scale c hc t a, List.map_cons]

theorem zipWith_drawdown_scale (c : ℚ) (hc : c ≠ 0) :
    ∀ l1 l2 : List ℚ,
      List.zipWith (fun p m => (p - m) / m * 100)
          (l1.map fun x => c * x) (l2.map fun x => c * x)
        = List.zipWith (fun p m => (p - m) / m * 100) l1 l2 := by
  intro l1
  induction l1 with
  | nil => intro l2; rfl
  | cons a t ih =>
    intro l2
    cases l2 with
    | nil => rfl
    | cons b t2 =>
      show ((c * a - c * b) / (c * b) * 100) :: _ = ((a - b) / b * 100) :: _
      rw [← mul_sub, mul_div_mul_left _ _ hc, ih t2]

theorem drawdowns_scale (c : ℚ) (hc : 0 < c) (l : List ℚ) :
    drawdowns (l.map fun x => c * x) = drawdowns l := by
  unfold drawdowns
  rw [cummax_scale c (le_of_lt hc), zipWith_drawdown_scale c (ne_of_gt hc)]

theorem calculate_mdd_scale (c : ℚ) (hc : 0 < c) (l : List ℚ) :
    calculate_mdd (l.map fun x => c * x) = calculate_mdd l := by
  unfold calculate_mdd
  rw [List.length_map, drawdowns_scale c hc]

theorem total_return_scale (c : ℚ) (hc : c ≠ 0) (vals : List ℚ) :
    ((vals.map fun x => c * x).getLast?.getD 0 /
        (vals.map fun x => c * x).head?.getD 0 - 1) * 100
      = (vals.getLast?.getD 0 / vals.head?.getD 0 - 1) * 100 := by
  rw [List.getLast?_map, List.head?_map]
  cases vals.getLast? with
  | none =>
    cases vals.head? with
    | none => rfl
    | some h => show ((0 : ℚ) / (c * h) - 1) * 100 = (0 / h - 1) * 100; rw [zero_div, zero_div]
  | some l =>
    cases vals.head? with
    | none => show ((c * l) / (0 : ℚ) - 1) * 100 = (l / 0 - 1) * 100; rw [div_zero, div_zero]
    | some h =>
      show ((c * l) / (c * h) - 1) * 100 = (l / h - 1) * 100
      rw [mul_div_mul_left l h hc]

theorem buildResult_total (c : PortfolioCfg) (rows : List (ℕ × List (String × ℚ))) :
    (buildResult c rows).total_return =
      (((portfolioIndex c.etfs rows).map Prod.snd).getLast?.getD 0 /
        ((portfolioIndex c.etfs rows).map Prod.snd).head?.getD 0 - 1) * 100 := rfl

theorem buildResult_mdd (c : PortfolioCfg) (rows : List (ℕ × List (String × ℚ))) :
    (buildResult c rows).mdd =
      calculate_mdd ((portfolioIndex c.etfs rows).map Prod.snd) := rfl

theorem buildResult_sharpe (c : PortfolioCfg) (rows : List (ℕ × List (String × ℚ))) :
    (buildResult c rows).sharpe =
      calculate_sharpe (pctChange ((portfolioIndex c.etfs rows).map Prod.snd)) := rfl

theorem buildResult_prices (c : PortfolioCfg) (rows : List (ℕ × List (String × ℚ))) :
    (buildResult c rows).prices = portfolioIndex c.etfs rows := rfl

theorem buildResult_last (c : PortfolioCfg) (rows : List (ℕ × List (String × ℚ))) :
    (buildResult c rows).last_updated = (rows.map Prod.fst).getLast? := rfl

theorem scaleResult_total (c : ℚ) (r : PerfResult) :
    (scaleResult c r).total_return = r.total_return := rfl

theorem scaleResult_annual (c : ℚ) (r : PerfResult) :
    (scaleResult c r).annual_return = r.annual_return := rfl

theorem scaleResult_mdd (c : ℚ) (r : PerfResult) :
    (scaleResult c r).mdd = r.mdd := rfl

theorem scaleResult_sharpe (c : ℚ) (r : PerfResult) :
    (scaleResult c r).sharpe = r.sharpe := rfl

theorem scaleResult_target (c : ℚ) (r : PerfResult) :
    (scaleResult c r).target_sharpe = r.target_sharpe := rfl

theorem scaleResult_prices (c : ℚ) (r : PerfResult) :
    (scaleResult c r).prices = scaleIndex c r.prices := rfl

theorem scaleResult_returns (c : ℚ) (r : PerfResult) :
    (scaleResult c r).returns = r.returns := rfl

theorem scaleResult_last (c : ℚ) (r : PerfResult) :
    (scaleResult c r).last_updated = r.last_updated := rfl

/-- Scaling all weights scales the index and leaves every metric of the
built result unchanged. -/
theorem buildResult_scale (c : ℚ) (hc : 0 < c) (p : PortfolioCfg)
    (rows : List (ℕ × List (String × ℚ))) :
    buildResult (scaleWeights c p) rows = scaleResult c (buildResult p rows) := by
  have hvals : (portfolioIndex (scaleWeights c p).etfs rows).map Prod.snd
      = ((portfolioIndex p.etfs rows).map Prod.snd).map fun x => c * x := by
    show (portfolioIndex (scaleEtfs c p.etfs) rows).map Prod.snd = _
    rw [portfolioIndex_scaleEtfs, scaleIndex_snd]
  have hdr : pctChange ((portfolioIndex (scaleWeights c p).etfs rows).map Prod.snd)
      = pctChange ((portfolioIndex p.etfs rows).map Prod.snd) := by
    rw [hvals, pctChange_scale c (ne_of_gt hc)]
  refine PerfResult.ext ?_ ?_ ?_ ?_ ?_ ?_ ?_ ?_
  · rw [scaleResult_total, buildResult_total, buildResult_total, hvals,
      total_return_scale c (ne_of_gt hc)]
  · rw [scaleResult_annual, buildResult_annual, buildResult_annual,
      buildResult_returns, buildResult_returns, hdr]
  · rw [scaleResult_mdd, buildResult_mdd, buildResult_mdd, hvals,
      calculate_mdd_scale c hc]
  · rw [scaleResult_sharpe, buildResult_sharpe, buildResult_sharpe, hdr]
  · rw [scaleResult_target, buildResult_target, buildResult_target]
    rfl
  · rw [scaleResult_prices, buildResult_prices, buildResult_prices]
    show portfolioIndex (scaleEtfs c p.etfs) rows
      = scaleIndex c (portfolioIndex p.etfs rows)
    rw [portfolioIndex_scaleEtfs]
  · rw [scaleResult_returns, buildResult_returns, buildResult_returns, hdr]
  · rw [scaleResult_last, buildResult_last, buildResult_last]

/-- C9: multiplying every instrument's weight by a positive constant `c`
scales the portfolio index pointwise by `c` and leaves `total_return`,
`annual_return`, `mdd` and `sharpe` unchanged (`scaleResult` changes
only the `prices` field). -/
theorem gpp_scale_invariant (c : ℚ) (hc : 0 < c) (cfg cfgS : Config)
    (fetch : Provider) (name : String) (pcfg : PortfolioCfg)
    (h : cfg.lookup name = some pcfg)
    (hS : cfgS.lookup name = some (scaleWeights c pcfg)) :
    get_portfolio_performance cfgS fetch name
      = (get_portfolio_performance cfg fetch name).map (scaleResult c) := by
  unfold get_portfolio_performance
  rw [h, hS]
  show (if (selectedSeries (scaleWeights c pcfg).etfs fetch).isEmpty then none
        else if (alignedRows (selectedSeries (scaleWeights c pcfg).etfs fetch)).isEmpty
          then none
        else some (buildResult (scaleWeights c pcfg)
          (alignedRows (selectedSeries (scaleWeights c pcfg).etfs fetch))))
      = Option.map (scaleResult c)
        (if (selectedSeries pcfg.etfs fetch).isEmpty then none
         else if (alignedRows (selectedSeries pcfg.etfs fetch)).isEmpty then none
         else some (buildResult pcfg (alignedRows (selectedSeries pcfg.etfs fetch))))
  have hsel : selectedSeries (scaleWeights c pcfg).etfs fetch
      = selectedSeries pcfg.etfs fetch :=
    selectedSeries_scaleEtfs c hc pcfg.etfs fetch
  rw [hsel]
  by_cases h1 : (selectedSeries pcfg.etfs fetch).isEmpty
  · rw [if_pos h1, if_pos h1]
    rfl
  · rw [if_neg h1, if_neg h1]
    by_cases h2 : (alignedRows (selectedSeries pcfg.etfs fetch)).isEmpty
    · rw [if_pos h2, if_pos h2]
      rfl
    · rw [if_neg h2, if_neg h2]
      exact congrArg some (buildResult_scale c hc pcfg _)

theorem gpp_scale_invariant_witness :
    get_portfolio_performance cfg0s f0 "A"
      = (get_portfolio_performance cfg0 f0 "A").map (scaleResult 2) :=
  gpp_scale_invariant 2 (by norm_num) cfg0 cfg0s f0 "A" pcfg0 rfl rfl

end ISA
